import Mathlib

/-!
A verification development for the channel ledger-query client
(`pkg/fab/channel/ledger.go`) of fabric-sdk-go, together with
spec-modelled components (the random target selector and the quorum
`Match` policy) whose implementations are outside the vendored sources.

Shallow-embedding conventions:
* Serialized protobuf payloads (`[]byte` on the wire) are modelled by the
  inductive `Bytes`: a payload either is the encoding of one concrete
  message (`encBlock`, `encEnvelope`, ...) or is junk (`raw`) on which
  `proto.Unmarshal` fails.  `proto.Unmarshal` into a message type `T` is a
  fallible decode `unmarshalT : Bytes → Except Err T`; the parser's own
  failure message is abstracted by `protoErr`.
* Go errors are strings. `errors.Wrap` and `errors.WithMessage` both
  render as `"msg: cause"` (`wrapErr`).  The aggregated error built with
  `multi.Append` is a list of such strings, `[]` standing for a nil error.
* Go runtime panics (nil-pointer dereference, index out of range) are an
  explicit `Outcome.panic` result, distinct from a returned error.
* Transport (`txn.SendProposal`, header and proposal construction, the
  request context) is an external collaborator; what it hands back to
  `queryChaincode` is the `DispatchOutcome` parameter of each query.
* Go slices carry a pointer to backing storage.  `filterResponses` is
  embedded with that structure made explicit (`filterRun` returns the
  final backing array and the retained length), because the source builds
  its result as `responses[:0]`, aliasing the input's storage.
-/

abbrev Err := String

def wrapErr (msg : String) (cause : Err) : Err := msg ++ ": " ++ cause

/-- Stand-in for the protobuf library's own parse-failure message. -/
def protoErr : Err := "proto: cannot parse invalid wire-format data"

/-- A serialized payload: either the encoding of one concrete message or
junk on which every unmarshal fails.  `encBlock` carries the block's
`Data` field (`*BlockData`, hence the `Option`) flattened to its list of
entry payloads; `encPayload` carries the optional header's
`ChannelHeader` bytes and the payload's `Data` bytes. -/
inductive Bytes where
  | raw : Nat → Bytes
  | encBlock : Option (List Bytes) → Bytes
  | encEnvelope : Bytes → Bytes
  | encPayload : Option Bytes → Bytes → Bytes
  | encChannelHeader : Int → Bytes
  | encConfigEnvelope : Nat → Bytes
  | encProcessedTransaction : Nat → Bytes

/-- common.BlockData: `Data [][]byte`. -/
structure BlockData where
  data : List Bytes

/-- common.Block: `Data *BlockData` (a nil pointer is `none`).  The
`Header` and `Metadata` fields are never read by this client and are
omitted. -/
structure Block where
  data : Option BlockData

/-- common.Envelope: `Payload []byte` (`Signature` never read). -/
structure Envelope where
  payload : Bytes

/-- common.Header: `ChannelHeader []byte` (`SignatureHeader` never read). -/
structure Header where
  channelHeader : Bytes

/-- common.Payload: `Header *common.Header` (nil is `none`), `Data []byte`. -/
structure Payload where
  header : Option Header
  data : Bytes

/-- common.ChannelHeader: only the `Type` field is read. -/
structure ChannelHeader where
  typ : Int

/-- common.ConfigEnvelope, opaque to this client; `tag` distinguishes
concrete values. -/
structure ConfigEnvelope where
  tag : Nat

/-- pb.ProcessedTransaction, opaque to this client. -/
structure ProcessedTransaction where
  tag : Nat

/-- common.HeaderType_CONFIG. -/
def headerTypeCONFIG : Int := 1

def unmarshalBlock : Bytes → Except Err Block
  | .encBlock d => .ok ⟨d.map BlockData.mk⟩
  | _ => .error protoErr

def unmarshalEnvelope : Bytes → Except Err Envelope
  | .encEnvelope p => .ok ⟨p⟩
  | _ => .error protoErr

def unmarshalPayload : Bytes → Except Err Payload
  | .encPayload h d => .ok ⟨h.map Header.mk, d⟩
  | _ => .error protoErr

def unmarshalChannelHeader : Bytes → Except Err ChannelHeader
  | .encChannelHeader t => .ok ⟨t⟩
  | _ => .error protoErr

def unmarshalConfigEnvelope : Bytes → Except Err ConfigEnvelope
  | .encConfigEnvelope n => .ok ⟨n⟩
  | _ => .error protoErr

def unmarshalProcessedTransaction : Bytes → Except Err ProcessedTransaction
  | .encProcessedTransaction n => .ok ⟨n⟩
  | _ => .error protoErr

/-- fab.TransactionProposalResponse.  The nested access
`tpr.ProposalResponse.GetResponse().Payload` is collapsed to `payload`
(`GetResponse` is a nil-safe getter). -/
structure TransactionProposalResponse where
  endorser : String
  status : Nat
  payload : Bytes

/-- The pluggable ResponseVerifier interface of ledger.go: `Verify` on a
single response, `Match` on a filtered set.  `none` is a nil error. -/
structure ResponseVerifier where
  verify : TransactionProposalResponse → Option Err
  matchSet : List TransactionProposalResponse → Option Err

/-- fab.ProposalProcessor handles are opaque; only their count and
identity matter here. -/
abbrev Target := String

/-- What the external collaborators hand to a query before filtering:
either a failure before `txn.SendProposal` (missing client context,
header creation, proposal creation), or the raw per-target responses and
aggregated transport error returned by `txn.SendProposal`. -/
inductive DispatchOutcome where
  | preFail : Err → DispatchOutcome
  | sent : List TransactionProposalResponse → List Err → DispatchOutcome

/-- Result of a Go call that can return a value, return an error, or
panic at runtime. -/
inductive Outcome (α : Type) where
  | ok : α → Outcome α
  | err : Err → Outcome α
  | panic : String → Outcome α

def nilPointerDeref : String :=
  "runtime error: invalid memory address or nil pointer dereference"

def indexOutOfRange : String := "runtime error: index out of range"

/-- multi.Errors rendered as a single error value (the exact rendering is
irrelevant to every claim). -/
def combineErrs (errs : List Err) : Err := String.intercalate "; " errs

/-- One iteration of the loop in `filterResponses`, acting on the state
(backing array, retained count, aggregated errors) at index `i`.  The
source appends into `responses[:0]`, so a retained response is written
into the shared backing array at position `k`. -/
def filterStep (verifier : Option ResponseVerifier)
    (st : List TransactionProposalResponse × Nat × List Err) (i : Nat) :
    List TransactionProposalResponse × Nat × List Err :=
  match st with
  | (backing, k, errs) =>
    match backing[i]? with
    | none => (backing, k, errs)
    | some response =>
      if response.status = 200 then
        match verifier with
        | some vf =>
          match vf.verify response with
          | some e =>
            (backing, k,
              errs ++ ["failed to verify response from " ++ response.endorser ++ ": " ++ e])
          | none => (backing.set k response, k + 1, errs)
        | none => (backing.set k response, k + 1, errs)
      else
        (backing, k,
          errs ++ ["bad status from " ++ response.endorser ++ " (" ++ toString response.status ++ ")"])

/-- The whole loop of `filterResponses`: Go's `range responses` captures
the length once and reads `responses[i]` from the (shared, updated)
backing array at each step. -/
def filterRun (responses : List TransactionProposalResponse) (errs : List Err)
    (verifier : Option ResponseVerifier) :
    List TransactionProposalResponse × Nat × List Err :=
  (List.range responses.length).foldl (filterStep verifier) (responses, 0, errs)

/-- `filterResponses` of ledger.go: the returned slice is
`backing[0:k]`. -/
def filterResponses (responses : List TransactionProposalResponse) (errs : List Err)
    (verifier : Option ResponseVerifier) :
    List TransactionProposalResponse × List Err :=
  match filterRun responses errs verifier with
  | (backing, k, errsOut) => (backing.take k, errsOut)

/-- Pure characterization of the retention test of `filterResponses`
(status 200 and, when a verifier is configured, `Verify` passing). -/
def keepResponse (verifier : Option ResponseVerifier)
    (r : TransactionProposalResponse) : Bool :=
  if r.status = 200 then
    match verifier with
    | some vf => (vf.verify r).isNone
    | none => true
  else false

/-- Pure characterization of the error entry `filterResponses` records
for a rejected response (`none` when the response is retained). -/
def rejectionEntry (verifier : Option ResponseVerifier)
    (r : TransactionProposalResponse) : Option Err :=
  if r.status = 200 then
    match verifier with
    | some vf =>
      (vf.verify r).map (fun e => "failed to verify response from " ++ r.endorser ++ ": " ++ e)
    | none => none
  else some ("bad status from " ++ r.endorser ++ " (" ++ toString r.status ++ ")")

/-- `queryChaincode` of ledger.go after its external collaborators are
abstracted into `DispatchOutcome`: a pre-dispatch failure is returned as
the error with no responses; otherwise the `SendProposal` results are
filtered. -/
def queryChaincode (d : DispatchOutcome) (verifier : Option ResponseVerifier) :
    List TransactionProposalResponse × List Err :=
  match d with
  | .preFail e => ([], [e])
  | .sent tprs errs => filterResponses tprs errs verifier

/-- `createCommonBlock` of ledger.go. -/
def createCommonBlock (tpr : TransactionProposalResponse) : Except Err Block :=
  match unmarshalBlock tpr.payload with
  | .error e => .error (wrapErr "unmarshal of transaction proposal response failed" e)
  | .ok b => .ok b

/-- `getConfigBlocks` of ledger.go: decodes every filtered response,
collecting successes and per-target errors. -/
def getConfigBlocks (tprs : List TransactionProposalResponse) :
    List Block × List Err :=
  tprs.foldl
    (fun acc tpr =>
      match createCommonBlock tpr with
      | .error e => (acc.1, acc.2 ++ [wrapErr ("From target: " ++ tpr.endorser) e])
      | .ok b => (acc.1 ++ [b], acc.2))
    ([], [])

/-- `createProcessedTransaction` of ledger.go. -/
def createProcessedTransaction (tpr : TransactionProposalResponse) :
    Except Err ProcessedTransaction :=
  match unmarshalProcessedTransaction tpr.payload with
  | .error e => .error (wrapErr "unmarshal of transaction proposal response failed" e)
  | .ok r => .ok r

/-- `createConfigEnvelope` of ledger.go: the strict ordered unwrap
Envelope → Payload → ChannelHeader → CONFIG check → ConfigEnvelope.  A
nil `payload.Header` makes the source dereference a nil pointer at
`payload.Header.ChannelHeader`.  Note that the source wraps a failing
channel-header unmarshal with the same message as a failing payload
unmarshal. -/
def createConfigEnvelope (data : Bytes) : Outcome ConfigEnvelope :=
  match unmarshalEnvelope data with
  | .error e => .err (wrapErr "unmarshal envelope from config block failed" e)
  | .ok envelope =>
    match unmarshalPayload envelope.payload with
    | .error e => .err (wrapErr "unmarshal payload from envelope failed" e)
    | .ok payload =>
      match payload.header with
      | none => .panic nilPointerDeref
      | some hdr =>
        match unmarshalChannelHeader hdr.channelHeader with
        | .error e => .err (wrapErr "unmarshal payload from envelope failed" e)
        | .ok channelHeader =>
          if channelHeader.typ ≠ headerTypeCONFIG then
            .err "block must be of type \x27CONFIG\x27"
          else
            match unmarshalConfigEnvelope payload.data with
            | .error e => .err (wrapErr "unmarshal config envelope failed" e)
            | .ok configEnvelope => .ok configEnvelope

/-- Lines 229–231 of ledger.go: `block, _ := createCommonBlock(tprs[0])`
followed by `createConfigEnvelope(block.Data.Data[0])`.  The decode error
is discarded; a failed decode leaves `block` nil and the field access
panics, as do a nil `block.Data` and an empty `block.Data.Data`. -/
def extractFromFirst (tprs : List TransactionProposalResponse) :
    Outcome ConfigEnvelope :=
  match tprs with
  | [] => .panic indexOutOfRange
  | t :: _ =>
    match createCommonBlock t with
    | .error _ => .panic nilPointerDeref
    | .ok b =>
      match b.data with
      | none => .panic nilPointerDeref
      | some bd =>
        match bd.data with
        | [] => .panic indexOutOfRange
        | d0 :: _ => createConfigEnvelope d0

/-- `QueryConfigBlock` of ledger.go.  The Go code binds the
`queryChaincode` pair once; here the two components are projected, which
is observationally identical. -/
def QueryConfigBlock (targets : List Target) (d : DispatchOutcome)
    (verifier : ResponseVerifier) : Outcome ConfigEnvelope :=
  if targets.length = 0 then .err "target(s) required"
  else
    let tprs := (queryChaincode d (some verifier)).1
    let errs := (queryChaincode d (some verifier)).2
    if errs ≠ [] ∧ tprs.length = 0 then
      .err (wrapErr "queryChaincode failed" (combineErrs errs))
    else
      match verifier.matchSet tprs with
      | some e => .err e
      | none => extractFromFirst tprs

/-- `QueryBlockByHash` of ledger.go; a nil `blockHash` slice is `none`. -/
def QueryBlockByHash (blockHash : Option Bytes) (d : DispatchOutcome)
    (verifier : Option ResponseVerifier) : List Block × List Err :=
  match blockHash with
  | none => ([], ["blockHash is required"])
  | some _ =>
    match queryChaincode d verifier with
    | (tprs, errs) =>
      match getConfigBlocks tprs with
      | (responses, errs2) => (responses, errs ++ errs2)

/-- `QueryBlockByTxID` of ledger.go. -/
def QueryBlockByTxID (txID : String) (d : DispatchOutcome)
    (verifier : Option ResponseVerifier) : List Block × List Err :=
  if txID = "" then ([], ["txID is required"])
  else
    match queryChaincode d verifier with
    | (tprs, errs) =>
      match getConfigBlocks tprs with
      | (responses, errs2) => (responses, errs ++ errs2)

/-- `QueryTransaction` of ledger.go.  Note: the source performs no
validation of `transactionID`; the identifier flows only into the
externally-modelled request construction. -/
def QueryTransaction (transactionID : String) (d : DispatchOutcome)
    (verifier : Option ResponseVerifier) : List ProcessedTransaction × List Err :=
  match transactionID, queryChaincode d verifier with
  | _, (tprs, errs) =>
    tprs.foldl
      (fun acc tpr =>
        match createProcessedTransaction tpr with
        | .error e => (acc.1, acc.2 ++ [wrapErr ("From target: " ++ tpr.endorser) e])
        | .ok r => (acc.1 ++ [r], acc.2))
      ([], errs)

/-- The configuration unwrap chain as the (amended) claim C1 states it:
take the first matched response's first block-data entry as an Envelope,
decode the Envelope's payload as a Payload, decode the Payload's header
as a ChannelHeader, reject a non-CONFIG header type, then decode the
Payload's data as the ConfigEnvelope; the envelope, payload and
config-envelope steps carry errors naming those steps, while a failing
channel-header decode carries the payload step's message.  The claim says
nothing about a decoded payload without a header; that case is excluded
by `payloadHeaderPresent` in the comparison theorem. -/
def configEnvelopeChainSpec (data : Bytes) : Outcome ConfigEnvelope :=
  match unmarshalEnvelope data with
  | .error e => .err (wrapErr "unmarshal envelope from config block failed" e)
  | .ok envelope =>
    match unmarshalPayload envelope.payload with
    | .error e => .err (wrapErr "unmarshal payload from envelope failed" e)
    | .ok payload =>
      match payload.header with
      | none => .err "payload has no header"
      | some hdr =>
        match unmarshalChannelHeader hdr.channelHeader with
        | .error e => .err (wrapErr "unmarshal payload from envelope failed" e)
        | .ok channelHeader =>
          if channelHeader.typ ≠ headerTypeCONFIG then
            .err "block must be of type \x27CONFIG\x27"
          else
            match unmarshalConfigEnvelope payload.data with
            | .error e => .err (wrapErr "unmarshal config envelope failed" e)
            | .ok configEnvelope => .ok configEnvelope

/-- Whether the unwrap chain, if it reaches the header access at all,
finds a non-nil header (vacuously true when an earlier step fails). -/
def payloadHeaderPresent (data : Bytes) : Bool :=
  match unmarshalEnvelope data with
  | .error _ => true
  | .ok envelope =>
    match unmarshalPayload envelope.payload with
    | .error _ => true
    | .ok payload => payload.header.isSome

/-- Modelled from the spec: the quorum verifier's `Match` used by the
channel-config retriever is not under src/ (only its tests are).  Per
§4.4 it must fail deterministically when the filtered set is empty or
smaller than the configured `minResponses`, and per §4.4's agreement
requirement when the set does not agree; the count check is all any
claim here depends on, so agreement beyond the count is not modelled. -/
def quorumMatch (minResponses : Nat)
    (tprs : List TransactionProposalResponse) : Option Err :=
  if tprs.length < minResponses then
    some "quorum not reached: insufficient responses"
  else none

/-- Modelled from the spec: `randomMaxTargets` of the chconfig package is
not under src/ (only its test is).  Per §4.1 it returns a subset of size
`min maxTargets N` with no duplicates, chosen by random sampling; the
randomness source is the explicit parameter `g`, each draw removing the
element at index `g m` modulo the remaining length. -/
def randomMaxTargets {α : Type} (g : Nat → Nat) : List α → Nat → List α
  | _, 0 => []
  | [], _ + 1 => []
  | a :: as, m + 1 =>
    let idx := g m % (a :: as).length
    have hidx : idx < (a :: as).length := Nat.mod_lt _ (Nat.succ_pos as.length)
    (a :: as).get ⟨idx, hidx⟩ :: randomMaxTargets g ((a :: as).eraseIdx idx) m

/-- A verifier that accepts everything (Verify and Match both nil). -/
def okVerifier : ResponseVerifier := ⟨fun _ => none, fun _ => none⟩

/-- A fully well-formed config-block data entry: CONFIG-typed header,
decodable config envelope. -/
def validConfigBytes : Bytes :=
  .encEnvelope (.encPayload (some (.encChannelHeader 1)) (.encConfigEnvelope 5))

/-- A status-200 response whose payload is a well-formed config block. -/
def goodResp : TransactionProposalResponse :=
  ⟨"peerA", 200, .encBlock (some [validConfigBytes])⟩

/-- A response with a non-success status. -/
def badResp : TransactionProposalResponse := ⟨"peerB", 500, .raw 0⟩

/-- A verifier whose Match always reports disagreement. -/
def mismatchVerifier : ResponseVerifier :=
  ⟨fun _ => none, fun _ => some "responses do not match"⟩

/-- Loop invariant of `filterResponses`: after the first `i` iterations
the backing array holds the retained prefix followed by the untouched
tail of the input, the retained count is the length of that prefix, and
the error list has gained exactly the rejection entries of the first `i`
responses. -/
theorem filterRun_inv (verifier : Option ResponseVerifier)
    (orig : List TransactionProposalResponse) (errs0 : List Err) :
    ∀ i, i ≤ orig.length →
      (List.range i).foldl (filterStep verifier) (orig, 0, errs0) =
        ((orig.take i).filter (keepResponse verifier)
            ++ orig.drop ((orig.take i).filter (keepResponse verifier)).length,
          ((orig.take i).filter (keepResponse verifier)).length,
          errs0 ++ (orig.take i).filterMap (rejectionEntry verifier)) := by
  intro i
  induction i with
  | zero =>
    intro _
    simp
  | succ n ih =>
    intro hle
    have hn : n < orig.length := Nat.lt_of_succ_le hle
    rw [List.range_succ, List.foldl_append, ih (Nat.le_of_lt hn)]
    set K := (orig.take n).filter (keepResponse verifier) with hK
    have hKlen : K.length ≤ n := by
      rw [hK]
      refine le_trans (List.length_filter_le _ _) ?_
      rw [List.length_take]
      exact Nat.min_le_left _ _
    have hKlt : K.length < orig.length := Nat.lt_of_le_of_lt hKlen hn
    have hread : (K ++ orig.drop K.length)[n]? = some orig[n] := by
      rw [List.getElem?_append_right hKlen, List.getElem?_drop,
        Nat.add_sub_cancel' hKlen]
      exact List.getElem?_eq_getElem hn
    have htake : orig.take (n + 1) = orig.take n ++ [orig[n]] := by
      rw [List.take_succ, List.getElem?_eq_getElem hn]
      rfl
    have hset : ∀ r : TransactionProposalResponse,
        (K ++ orig.drop K.length).set K.length r
          = (K ++ [r]) ++ orig.drop (K.length + 1) := by
      intro r
      rw [List.set_append_right _ _ (Nat.le_refl _), Nat.sub_self,
        List.drop_eq_getElem_cons hKlt, List.set_cons_zero, List.append_assoc,
        List.singleton_append]
    simp only [List.foldl_cons, List.foldl_nil, filterStep, hread]
    by_cases hs : orig[n].status = 200
    · cases verifier with
      | none =>
        have hkeep : keepResponse none orig[n] = true := by
          simp [keepResponse, hs]
        have hrej : rejectionEntry none orig[n] = none := by
          simp [rejectionEntry, hs]
        rw [if_pos hs]
        rw [htake, List.filter_append, List.filterMap_append]
        simp only [List.filter_cons, List.filter_nil, List.filterMap_cons,
          List.filterMap_nil, hkeep, hrej, if_pos]
        rw [hset orig[n]]
        simp [List.length_append]
      | some vf =>
        cases hvr : vf.verify orig[n] with
        | none =>
          have hkeep : keepResponse (some vf) orig[n] = true := by
            simp [keepResponse, hs, hvr]
          have hrej : rejectionEntry (some vf) orig[n] = none := by
            simp [rejectionEntry, hs, hvr]
          rw [if_pos hs]
          simp only [hvr]
          rw [htake, List.filter_append, List.filterMap_append]
          simp only [List.filter_cons, List.filter_nil, List.filterMap_cons,
            List.filterMap_nil, hkeep, hrej, if_pos]
          rw [hset orig[n]]
          simp [List.length_append]
        | some e =>
          have hkeep : keepResponse (some vf) orig[n] = false := by
            simp [keepResponse, hs, hvr]
          have hrej : rejectionEntry (some vf) orig[n]
              = some ("failed to verify response from " ++ orig[n].endorser ++ ": " ++ e) := by
            simp [rejectionEntry, hs, hvr]
          rw [if_pos hs]
          simp only [hvr]
          rw [htake, List.filter_append, List.filterMap_append]
          simp only [List.filter_cons, List.filter_nil, List.filterMap_cons,
            List.filterMap_nil, hkeep, hrej]
          simp [List.append_assoc]
    · have hkeep : keepResponse verifier orig[n] = false := by
        simp [keepResponse, hs]
      have hrej : rejectionEntry verifier orig[n]
          = some ("bad status from " ++ orig[n].endorser
              ++ " (" ++ toString orig[n].status ++ ")") := by
        simp [rejectionEntry, hs]
      rw [if_neg hs]
      rw [htake, List.filter_append, List.filterMap_append]
      simp only [List.filter_cons, List.filter_nil, List.filterMap_cons,
        List.filterMap_nil, hkeep, hrej]
      simp [List.append_assoc]

/-- The two components of `filterResponses` in closed form: the filtered
list is exactly the retained subset, in order, and the error list is the
input errors followed by the rejection entries, one per response. -/
theorem filterResponses_closed_form (responses : List TransactionProposalResponse)
    (errs : List Err) (verifier : Option ResponseVerifier) :
    filterResponses responses errs verifier
      = (responses.filter (keepResponse verifier),
          errs ++ responses.filterMap (rejectionEntry verifier)) := by
  unfold filterResponses filterRun
  rw [filterRun_inv verifier responses errs responses.length (Nat.le_refl _)]
  simp only [List.take_length]
  rw [List.take_left]

/-- C5: for every input batch and every (possibly absent) verifier, the
response filter retains exactly the responses whose status is 200 and,
when a verifier is configured, that also pass Verify; it records exactly
one error entry per rejected response (the rejection entry carries the
rejecting target's endorser identity and is `none` exactly on retained
responses), and it processes the full input list — the outputs are total
functions of the whole input, with one entry per rejected element. -/
theorem filterResponses_retains_exactly_passing :
    ∀ (responses : List TransactionProposalResponse) (errs : List Err)
      (verifier : Option ResponseVerifier),
      (filterResponses responses errs verifier).1
          = responses.filter (keepResponse verifier)
      ∧ (filterResponses responses errs verifier).2
          = errs ++ responses.filterMap (rejectionEntry verifier)
      ∧ ∀ r : TransactionProposalResponse,
          (rejectionEntry verifier r).isNone = keepResponse verifier r := by
  intro responses errs verifier
  refine ⟨by rw [filterResponses_closed_form], by rw [filterResponses_closed_form], ?_⟩
  intro r
  by_cases hs : r.status = 200
  · cases verifier with
    | none => simp [rejectionEntry, keepResponse, hs]
    | some vf =>
      cases hvr : vf.verify r with
      | none => simp [rejectionEntry, keepResponse, hs, hvr]
      | some e => simp [rejectionEntry, keepResponse, hs, hvr]
  · simp [rejectionEntry, keepResponse, hs]

/-- C10: the filter writes retained responses back into the input's
backing storage (`responses[:0]`): for every input, the final backing
array is the retained prefix followed by the input's untouched tail, and
the retained count is that prefix's length, so the first `len(filtered)`
positions of the input hold the retained responses.  The closed conjunct
shows the per-position contents are not preserved: filtering
`[badResp, goodResp]` (endorsers "peerB", "peerA") leaves a backing array
whose endorsers are `["peerA", "peerA"]` — position 0 was overwritten. -/
theorem filterResponses_overwrites_input_backing :
    (∀ (responses : List TransactionProposalResponse) (errs : List Err)
        (verifier : Option ResponseVerifier),
        (filterRun responses errs verifier).1
            = (filterResponses responses errs verifier).1
              ++ responses.drop (filterResponses responses errs verifier).1.length
        ∧ (filterRun responses errs verifier).2.1
            = (filterResponses responses errs verifier).1.length)
    ∧ List.map TransactionProposalResponse.endorser
        (filterRun [badResp, goodResp] [] none).1 = ["peerA", "peerA"] := by
  constructor
  · intro responses errs verifier
    have h := filterRun_inv verifier responses errs responses.length (Nat.le_refl _)
    rw [filterResponses_closed_form]
    simp only [List.take_length] at h
    unfold filterRun
    rw [h]
    exact ⟨rfl, rfl⟩
  · rfl

/-- C3: a configuration query with an empty target list returns no
artifact and exactly the error "target(s) required", for every dispatch
outcome and every verifier — so the check precedes dispatch and no
proposal is created or sent. -/
theorem queryConfigBlock_requires_targets :
    ∀ (d : DispatchOutcome) (v : ResponseVerifier),
      QueryConfigBlock [] d v = .err "target(s) required" := by
  intro d v
  rfl

/-- C2: evaluating `QueryConfigBlock` on matched response sets whose
single (representative) response fails to decode shows the call panics
instead of returning an error: an undecodable payload leaves `block` nil
(its decode error having been discarded) and `block.Data` dereferences a
nil pointer; a decoded block with nil `Data` does the same; a block with
zero data entries indexes out of range. -/
theorem queryConfigBlock_bad_decode_panics :
    QueryConfigBlock ["p"] (.sent [⟨"peer1", 200, .raw 7⟩] []) okVerifier
        = .panic nilPointerDeref
    ∧ QueryConfigBlock ["p"] (.sent [⟨"peer1", 200, .encBlock none⟩] []) okVerifier
        = .panic nilPointerDeref
    ∧ QueryConfigBlock ["p"] (.sent [⟨"peer1", 200, .encBlock (some [])⟩] []) okVerifier
        = .panic indexOutOfRange := by
  exact ⟨rfl, rfl, rfl⟩

/-- C1 counterexample: two accepted single-response sets whose unwrap
fails at DIFFERENT steps — the first at the payload decode, the second at
the channel-header decode — produce the IDENTICAL error, so the failing
channel-header step does not produce an error identifying that step (it
is labelled with the payload step's message). -/
theorem configQuery_step_errors_not_distinct :
    QueryConfigBlock ["p"]
        (.sent [⟨"peer1", 200, .encBlock (some [.encEnvelope (.raw 0)])⟩] []) okVerifier
      = .err (wrapErr "unmarshal payload from envelope failed" protoErr)
    ∧ QueryConfigBlock ["p"]
        (.sent [⟨"peer1", 200,
          .encBlock (some [.encEnvelope (.encPayload (some (.raw 0)) (.raw 1))])⟩] []) okVerifier
      = .err (wrapErr "unmarshal payload from envelope failed" protoErr)
    ∧ QueryConfigBlock ["p"]
        (.sent [⟨"peer1", 200, .encBlock (some [.encEnvelope (.raw 0)])⟩] []) okVerifier
      = QueryConfigBlock ["p"]
        (.sent [⟨"peer1", 200,
          .encBlock (some [.encEnvelope (.encPayload (some (.raw 0)) (.raw 1))])⟩] []) okVerifier := by
  exact ⟨rfl, rfl, rfl⟩

/-- C6 (amended): `QueryBlockByHash` with a nil hash and
`QueryBlockByTxID` with an empty transaction identifier fail before
dispatch — for every dispatch outcome and verifier the result is exactly
the naming error and nothing else — while `QueryTransaction` performs no
such validation: an empty transaction identifier is processed exactly
like any other. -/
theorem ledger_missing_identifier_validation :
    (∀ (d : DispatchOutcome) (v : Option ResponseVerifier),
        QueryBlockByHash none d v = ([], ["blockHash is required"]))
    ∧ (∀ (d : DispatchOutcome) (v : Option ResponseVerifier),
        QueryBlockByTxID "" d v = ([], ["txID is required"]))
    ∧ (∀ (d : DispatchOutcome) (v : Option ResponseVerifier),
        QueryTransaction "" d v = QueryTransaction "tx" d v) := by
  refine ⟨fun d v => rfl, fun d v => rfl, fun d v => rfl⟩

/-- C6 counterexample: `QueryTransaction` called with an empty
transaction identifier does not fail before dispatch — it dispatches and
returns a successful artifact with no error at all, and its result
depends on the dispatch outcome. -/
theorem queryTransaction_empty_txid_dispatches :
    QueryTransaction "" (.sent [⟨"peer1", 200, .encProcessedTransaction 3⟩] []) none
      = ([⟨3⟩], [])
    ∧ QueryTransaction "" (.preFail "send failed") none = ([], ["send failed"]) := by
  exact ⟨rfl, rfl⟩

/-- On inputs where the decoded payload (when the chain gets that far)
carries a header, the source's unwrap coincides with the chain as the
amended claim words it. -/
theorem createConfigEnvelope_eq_chainSpec (d : Bytes)
    (h : payloadHeaderPresent d = true) :
    createConfigEnvelope d = configEnvelopeChainSpec d := by
  cases d
  case encEnvelope p =>
    cases p
    case encPayload oh db =>
      cases oh
      case none => exact Bool.noConfusion h
      case some hb => rfl
    all_goals rfl
  all_goals rfl

/-- C1 (amended): for every response set accepted for a configuration
query — non-empty targets, guard passed, Match nil — whose first matched
response decodes as a Block with a first data entry, and whose decoded
payload (when the chain gets that far) carries a header, QueryConfigBlock
extracts the ConfigEnvelope from that first response's first data entry
by the exact ordered unwrap of `configEnvelopeChainSpec`: entry →
Envelope → Payload → ChannelHeader → CONFIG-type assertion (failing with
"block must be of type 'CONFIG'") → ConfigEnvelope, where the envelope,
payload and config-envelope decode failures carry errors naming those
steps but a channel-header decode failure carries the payload step's
message. -/
theorem queryConfigBlock_unwrap_chain
    (targets : List Target) (raw : List TransactionProposalResponse)
    (errs : List Err) (v : ResponseVerifier)
    (t : TransactionProposalResponse) (rest : List TransactionProposalResponse)
    (bd0 : Bytes) (bdRest : List Bytes)
    (h0 : targets ≠ [])
    (h1 : (filterResponses raw errs (some v)).1 = t :: rest)
    (h2 : v.matchSet (t :: rest) = none)
    (h3 : t.payload = .encBlock (some (bd0 :: bdRest)))
    (h4 : payloadHeaderPresent bd0 = true) :
    QueryConfigBlock targets (.sent raw errs) v = configEnvelopeChainSpec bd0 := by
  unfold QueryConfigBlock
  rw [if_neg (fun hl => h0 (List.length_eq_zero.mp hl))]
  simp only [queryChaincode]
  rw [h1]
  rw [if_neg (fun hc => Nat.succ_ne_zero rest.length hc.2)]
  rw [h2]
  have hblock : createCommonBlock t = .ok ⟨some ⟨bd0 :: bdRest⟩⟩ := by
    unfold createCommonBlock unmarshalBlock
    rw [h3]
    rfl
  unfold extractFromFirst
  dsimp only
  rw [hblock]
  exact createConfigEnvelope_eq_chainSpec bd0 h4

theorem queryConfigBlock_unwrap_chain_witness :
    QueryConfigBlock ["t"] (.sent [goodResp] []) okVerifier
      = configEnvelopeChainSpec validConfigBytes :=
  queryConfigBlock_unwrap_chain ["t"] [goodResp] [] okVerifier goodResp []
    validConfigBytes [] (List.cons_ne_nil _ _) rfl rfl rfl rfl

/-- C4: on the configuration-query path, whenever the filtered set passes
the empty-set guard and the verifier's Match on the filtered set returns
an error, the call returns exactly that error and no artifact — for every
payload content, so before any extraction takes place. -/
theorem queryConfigBlock_match_error_fatal
    (targets : List Target) (raw : List TransactionProposalResponse)
    (errs : List Err) (v : ResponseVerifier) (e : Err)
    (h0 : targets ≠ [])
    (hg : ¬((filterResponses raw errs (some v)).2 ≠ []
          ∧ (filterResponses raw errs (some v)).1.length = 0))
    (hm : v.matchSet (filterResponses raw errs (some v)).1 = some e) :
    QueryConfigBlock targets (.sent raw errs) v = .err e := by
  unfold QueryConfigBlock
  rw [if_neg (fun hl => h0 (List.length_eq_zero.mp hl))]
  simp only [queryChaincode]
  rw [if_neg hg, hm]

theorem queryConfigBlock_match_error_fatal_witness :
    QueryConfigBlock ["t"] (.sent [goodResp] []) mismatchVerifier
      = .err "responses do not match" :=
  queryConfigBlock_match_error_fatal ["t"] [goodResp] [] mismatchVerifier
    "responses do not match" (List.cons_ne_nil _ _) (by decide) rfl

/-- C8: with the spec-modelled quorum Match configured for
`minResponses = 2`, a configuration query whose filtered set contains
exactly one response — however valid that response is individually —
fails with the quorum error and returns no artifact. -/
theorem queryConfigBlock_quorum_not_reached
    (targets : List Target) (raw : List TransactionProposalResponse)
    (errs : List Err) (vf : TransactionProposalResponse → Option Err)
    (h0 : targets ≠ [])
    (h1 : (filterResponses raw errs (some ⟨vf, quorumMatch 2⟩)).1.length = 1) :
    QueryConfigBlock targets (.sent raw errs) ⟨vf, quorumMatch 2⟩
      = .err "quorum not reached: insufficient responses" := by
  unfold QueryConfigBlock
  rw [if_neg (fun hl => h0 (List.length_eq_zero.mp hl))]
  simp only [queryChaincode]
  rw [if_neg (fun hc => by rw [h1] at hc; exact one_ne_zero hc.2)]
  have hq : ∀ l : List TransactionProposalResponse, l.length = 1 →
      quorumMatch 2 l = some "quorum not reached: insufficient responses" := by
    intro l hl
    unfold quorumMatch
    rw [hl]
    rfl
  rw [hq _ h1]

theorem queryConfigBlock_quorum_not_reached_witness :
    QueryConfigBlock ["t"] (.sent [goodResp] []) ⟨fun _ => none, quorumMatch 2⟩
      = .err "quorum not reached: insufficient responses"
    ∧ createConfigEnvelope validConfigBytes = .ok ⟨5⟩ :=
  ⟨queryConfigBlock_quorum_not_reached ["t"] [goodResp] [] (fun _ => none)
    (List.cons_ne_nil _ _) rfl, rfl⟩

/-- C9: whenever the filtered set on the configuration-query path is
non-empty, the aggregated per-target error plays no further role — the
call's result is identical under any aggregated error, so a successful
config result never carries the per-target failure details; and the
queryChaincode error is returned exactly when the filtered set is empty
and the aggregated error is non-nil. -/
theorem queryConfigBlock_discards_partial_errors :
    (∀ (targets : List Target) (raw : List TransactionProposalResponse)
        (errs1 errs2 : List Err) (v : ResponseVerifier),
        (filterResponses raw errs1 (some v)).1.length ≠ 0 →
        QueryConfigBlock targets (.sent raw errs1) v
          = QueryConfigBlock targets (.sent raw errs2) v)
    ∧ (∀ (targets : List Target) (raw : List TransactionProposalResponse)
        (errs : List Err) (v : ResponseVerifier),
        targets ≠ [] →
        (filterResponses raw errs (some v)).1.length = 0 →
        (filterResponses raw errs (some v)).2 ≠ [] →
        QueryConfigBlock targets (.sent raw errs) v
          = .err (wrapErr "queryChaincode failed"
              (combineErrs (filterResponses raw errs (some v)).2))) := by
  constructor
  · intro targets raw errs1 errs2 v hne
    have hf : (raw.filter (keepResponse (some v))).length ≠ 0 := by
      rw [filterResponses_closed_form] at hne
      exact hne
    unfold QueryConfigBlock
    by_cases hlen : targets.length = 0
    · rw [if_pos hlen, if_pos hlen]
    · rw [if_neg hlen, if_neg hlen]
      simp only [queryChaincode, filterResponses_closed_form]
      rw [if_neg (fun hc => hf hc.2), if_neg (fun hc => hf hc.2)]
  · intro targets raw errs v h0 hlen hne
    unfold QueryConfigBlock
    rw [if_neg (fun hl => h0 (List.length_eq_zero.mp hl))]
    simp only [queryChaincode]
    rw [if_pos ⟨hne, hlen⟩]

theorem queryConfigBlock_discards_partial_errors_witness :
    (QueryConfigBlock ["t"] (.sent [goodResp] ["peer2 down"]) okVerifier
        = QueryConfigBlock ["t"] (.sent [goodResp] []) okVerifier)
    ∧ QueryConfigBlock ["t"] (.sent [badResp] []) okVerifier
        = .err (wrapErr "queryChaincode failed"
            (combineErrs ["bad status from peerB (500)"])) :=
  ⟨queryConfigBlock_discards_partial_errors.1 ["t"] [goodResp] ["peer2 down"] []
      okVerifier (by decide),
   queryConfigBlock_discards_partial_errors.2 ["t"] [badResp] [] okVerifier
      (List.cons_ne_nil _ _) rfl (by decide)⟩

/-- Removing the picked element and putting it back in front is a
permutation of the original list. -/
theorem get_cons_eraseIdx_perm {α : Type} :
    ∀ (l : List α) (i : Nat) (h : i < l.length),
      List.Perm (l.get ⟨i, h⟩ :: l.eraseIdx i) l := by
  intro l
  induction l with
  | nil =>
    intro i h
    exact absurd h (Nat.not_lt_zero i)
  | cons a as ih =>
    intro i h
    cases i with
    | zero => exact List.Perm.refl _
    | succ j =>
      have hj : j < as.length := Nat.lt_of_succ_lt_succ h
      show List.Perm (as.get ⟨j, hj⟩ :: a :: as.eraseIdx j) (a :: as)
      exact (List.Perm.swap a (as.get ⟨j, hj⟩) _).trans ((ih j hj).cons a)

theorem randomMaxTargets_length {α : Type} (g : Nat → Nat) :
    ∀ (k : Nat) (l : List α), (randomMaxTargets g l k).length = min k l.length := by
  intro k
  induction k with
  | zero =>
    intro l
    cases l <;> simp [randomMaxTargets]
  | succ m ih =>
    intro l
    cases l with
    | nil => simp [randomMaxTargets]
    | cons a as =>
      have hidx : g m % (as.length + 1) < (a :: as).length :=
        Nat.mod_lt _ (Nat.succ_pos as.length)
      simp only [randomMaxTargets, List.length_cons, ih,
        List.length_eraseIdx_of_lt hidx]
      omega

theorem randomMaxTargets_mem {α : Type} (g : Nat → Nat) :
    ∀ (k : Nat) (l : List α) (x : α), x ∈ randomMaxTargets g l k → x ∈ l := by
  intro k
  induction k with
  | zero =>
    intro l x hx
    cases l <;> simp [randomMaxTargets] at hx
  | succ m ih =>
    intro l x hx
    cases l with
    | nil => simp [randomMaxTargets] at hx
    | cons a as =>
      have hidx : g m % (a :: as).length < (a :: as).length :=
        Nat.mod_lt _ (Nat.succ_pos as.length)
      simp only [randomMaxTargets, List.mem_cons] at hx
      have hperm := get_cons_eraseIdx_perm (a :: as) (g m % (a :: as).length) hidx
      cases hx with
      | inl hx => exact hx ▸ List.get_mem _ _ _
      | inr hx =>
        exact hperm.mem_iff.mp (List.mem_cons_of_mem _ (ih _ x hx))

theorem randomMaxTargets_nodup {α : Type} (g : Nat → Nat) :
    ∀ (k : Nat) (l : List α), l.Nodup → (randomMaxTargets g l k).Nodup := by
  intro k
  induction k with
  | zero =>
    intro l hl
    cases l <;> simp [randomMaxTargets]
  | succ m ih =>
    intro l hl
    cases l with
    | nil => simp [randomMaxTargets]
    | cons a as =>
      have hidx : g m % (a :: as).length < (a :: as).length :=
        Nat.mod_lt _ (Nat.succ_pos as.length)
      have hperm := get_cons_eraseIdx_perm (a :: as) (g m % (a :: as).length) hidx
      have hnd : ((a :: as).get ⟨g m % (a :: as).length, hidx⟩
          :: (a :: as).eraseIdx (g m % (a :: as).length)).Nodup :=
        hperm.nodup_iff.mpr hl
      rw [List.nodup_cons] at hnd
      simp only [randomMaxTargets, List.nodup_cons]
      exact ⟨fun hmem => hnd.1 (randomMaxTargets_mem g m _ _ hmem), ih _ hnd.2⟩

theorem randomMaxTargets_perm_of_le {α : Type} (g : Nat → Nat) :
    ∀ (k : Nat) (l : List α), l.length ≤ k
      → List.Perm (randomMaxTargets g l k) l := by
  intro k
  induction k with
  | zero =>
    intro l hl
    cases l with
    | nil => exact List.Perm.refl _
    | cons a as => exact absurd hl (by simp)
  | succ m ih =>
    intro l hl
    cases l with
    | nil => exact List.Perm.refl _
    | cons a as =>
      have hidx : g m % (a :: as).length < (a :: as).length :=
        Nat.mod_lt _ (Nat.succ_pos as.length)
      have hperm := get_cons_eraseIdx_perm (a :: as) (g m % (a :: as).length) hidx
      have hlen : ((a :: as).eraseIdx (g m % (a :: as).length)).length ≤ m := by
        rw [List.length_eraseIdx_of_lt hidx]
        simp only [List.length_cons] at hl ⊢
        omega
      simp only [randomMaxTargets]
      exact ((ih _ hlen).cons _).trans hperm

/-- C7: for every candidate list and bound, the spec-modelled selector
returns exactly `min k N` targets, all drawn from the candidates, with no
duplicates when the candidates have none; `k = 0` yields the empty
(non-error) result and `k ≥ N` yields a permutation of all `N`
candidates; and the output order can differ from the input order (closed
conjunct). -/
theorem randomMaxTargets_selection_spec :
    (∀ (α : Type) (g : Nat → Nat) (l : List α) (k : Nat),
        (randomMaxTargets g l k).length = min k l.length
        ∧ (∀ x, x ∈ randomMaxTargets g l k → x ∈ l)
        ∧ (l.Nodup → (randomMaxTargets g l k).Nodup)
        ∧ (k = 0 → randomMaxTargets g l k = [])
        ∧ (l.length ≤ k → List.Perm (randomMaxTargets g l k) l))
    ∧ randomMaxTargets (fun _ => 1) [0, 1, 2] 3 ≠ [0, 1, 2] := by
  constructor
  · intro α g l k
    refine ⟨randomMaxTargets_length g k l,
      fun x => randomMaxTargets_mem g k l x,
      randomMaxTargets_nodup g k l,
      fun hk => ?_,
      randomMaxTargets_perm_of_le g k l⟩
    subst hk
    cases l <;> rfl
  · decide

theorem randomMaxTargets_selection_spec_witness :
    (randomMaxTargets (fun _ => 1) [0, 1, 2] 2).Nodup
    ∧ randomMaxTargets (fun _ => 1) ([] : List Nat) 0 = []
    ∧ List.Perm (randomMaxTargets (fun _ => 1) [0, 1, 2] 5) [0, 1, 2] :=
  ⟨(randomMaxTargets_selection_spec.1 Nat (fun _ => 1) [0, 1, 2] 2).2.2.1 (by decide),
   (randomMaxTargets_selection_spec.1 Nat (fun _ => 1) [] 0).2.2.2.1 rfl,
   (randomMaxTargets_selection_spec.1 Nat (fun _ => 1) [0, 1, 2] 5).2.2.2.2 (by decide)⟩
